import Mathlib

/-! LPC43xx State Configurable Timer register map (libgreat, `drivers/sct.h`).

The header declares no executable code: it is a set of C type declarations
overlaid on the SCT peripheral, followed by seven compile-time offset checks.
The development below embeds

* the C declarations as values of a small type language (`CType`, `Member`),
  one Lean value per `typedef`, member for member;
* the layout rules the compiler applies to them on the little-endian ARM
  target (sizes, alignment, `packed`, bit-field allocation from bit 0 up);
* object values as natural numbers (the little-endian integer of the
  object's bytes), with member reads and writes as bit-range operations.
-/

namespace Sct

/-! ## The C type language -/

mutual
/-- C object types used by the header. -/
inductive CType where
  | uint16_t : CType
  | uint32_t : CType
  /-- A bit-field `base name : width`. -/
  | bitfield (base : CType) (width : Nat) : CType
  | array (elem : CType) (len : Nat) : CType
  /-- A `struct`; `packed` records whether it carries the packed attribute. -/
  | struct (packed : Bool) (members : List Member) : CType
  | union (members : List Member) : CType
/-- A member declaration of a struct or union. -/
inductive Member where
  | named (name : String) (type : CType) : Member
  /-- An anonymous struct/union member, an unnamed bit-field, or reserved words. -/
  | unnamed (type : CType) : Member
end

/-- Round `n` up to a multiple of `a`. -/
def roundUp (n a : Nat) : Nat := (n + a - 1) / a * a

/-- Start position (in bits) of a member put at bit cursor `cursor`.
`container` is the storage-unit size when the member is a bit-field.
Ordinary members start on their alignment (a byte in a packed struct).
A zero-width bit-field closes the current storage unit, packed or not: what
follows starts on the next boundary of its unit. Any other bit-field starts
at the cursor, except that outside a packed struct it may not straddle a
boundary of its storage unit. -/
def placeAt (packed : Bool) (cursor : Nat) (container : Option Nat) (align width : Nat) : Nat :=
  match container with
  | some unit =>
    if width = 0 then roundUp cursor unit
    else if packed then cursor
    else if cursor / unit = (cursor + width - 1) / unit then cursor
    else roundUp cursor align
  | none => roundUp cursor (if packed then 8 else align)

mutual
/-- Size of a type in bits. -/
def CType.bits : CType → Nat
  | .uint16_t => 16
  | .uint32_t => 32
  | .bitfield _ w => w
  | .array e n => n * e.bits
  | .struct packed ms => roundUp (structEnd packed 0 ms) (if packed then 8 else listAlign ms)
  | .union ms => roundUp (unionBits ms) (listAlign ms)
/-- Alignment of a type in bits. -/
def CType.align : CType → Nat
  | .uint16_t => 16
  | .uint32_t => 32
  | .bitfield b _ => b.align
  | .array e _ => e.align
  | .struct packed ms => if packed then 8 else listAlign ms
  | .union ms => listAlign ms
/-- Storage-unit size when the type is a bit-field. -/
def CType.container : CType → Option Nat
  | .bitfield b _ => some b.bits
  | _ => none
/-- Size of a member in bits. -/
def Member.bits : Member → Nat
  | .named _ t => t.bits
  | .unnamed t => t.bits
/-- Alignment of a member in bits. -/
def Member.align : Member → Nat
  | .named _ t => t.align
  | .unnamed t => t.align
/-- Storage-unit size when the member is a bit-field. -/
def Member.container : Member → Option Nat
  | .named _ t => t.container
  | .unnamed t => t.container
/-- Bit cursor after laying out the members of a struct from `cursor`. -/
def structEnd (packed : Bool) : Nat → List Member → Nat
  | cursor, [] => cursor
  | cursor, m :: rest =>
    structEnd packed (placeAt packed cursor m.container m.align m.bits + m.bits) rest
/-- Size in bits of the largest member of a union. -/
def unionBits : List Member → Nat
  | [] => 0
  | m :: rest => max m.bits (unionBits rest)
/-- Largest alignment among members (at least one byte). -/
def listAlign : List Member → Nat
  | [] => 8
  | m :: rest => max m.align (listAlign rest)
end

/-- Start position of member `m` at bit cursor `cursor`. -/
def Member.place (packed : Bool) (cursor : Nat) (m : Member) : Nat :=
  placeAt packed cursor m.container m.align m.bits

/-- The C `sizeof`, in bytes. -/
def CType.sizeof (t : CType) : Nat := t.bits / 8

mutual
/-- Resolve a member name inside a struct or union: bit position from the start
of the object, and the member's type. Members of anonymous structs and unions
belong to the enclosing scope. -/
def CType.find (name : String) : CType → Option (Nat × CType)
  | .struct packed ms => findStruct name packed 0 ms
  | .union ms => findUnion name ms
  | _ => none
/-- Resolve `name` in a member that starts at bit `start`. -/
def Member.findAt (name : String) (start : Nat) : Member → Option (Nat × CType)
  | .named n t => if n = name then some (start, t) else none
  | .unnamed t =>
    match t.find name with
    | some r => some (start + r.1, r.2)
    | none => none
/-- Resolve `name` among struct members laid out from `cursor`. -/
def findStruct (name : String) (packed : Bool) : Nat → List Member → Option (Nat × CType)
  | _, [] => none
  | cursor, m :: rest =>
    match m.findAt name (placeAt packed cursor m.container m.align m.bits) with
    | some r => some r
    | none => findStruct name packed (placeAt packed cursor m.container m.align m.bits + m.bits) rest
/-- Resolve `name` among union members, which all start at bit 0. -/
def findUnion (name : String) : List Member → Option (Nat × CType)
  | [] => none
  | m :: rest =>
    match m.findAt name 0 with
    | some r => some r
    | none => findUnion name rest
end

/-- The C `offsetof`, in bytes. -/
def offsetof (t : CType) (name : String) : Option Nat :=
  match t.find name with
  | some r => some (r.1 / 8)
  | none => none

/-- One step of a C access path: `.name` or `[i]`. -/
inductive Step where
  | member (name : String) : Step
  | index (i : Nat) : Step

/-- Resolve an access path such as `event[3].next_state` inside an object of
type `t`: bit position from the start of the object, and the type reached.
Element `i` of an array lies `i` element sizes after element 0. -/
def resolve : CType → List Step → Option (Nat × CType)
  | t, [] => some (0, t)
  | t, .member name :: rest =>
    match t.find name with
    | some (pos, ty) =>
      match resolve ty rest with
      | some r => some (pos + r.1, r.2)
      | none => none
    | none => none
  | .array e n, .index i :: rest =>
    if i < n then
      match resolve e rest with
      | some r => some (i * e.bits + r.1, r.2)
      | none => none
    else none
  | _, .index _ :: _ => none

/-- Bit range an access path denotes: start bit and width. -/
def extent (t : CType) (path : List Step) : Option (Nat × Nat) :=
  match resolve t path with
  | some r => some (r.1, r.2.bits)
  | none => none

/-- Byte offset of the object an access path denotes. -/
def byteOffset (t : CType) (path : List Step) : Option Nat :=
  match extent t path with
  | some r => some (r.1 / 8)
  | none => none

/-- Byte offset of element `i` of the array member `name`. -/
def slotOffset (t : CType) (name : String) (i : Nat) : Option Nat :=
  byteOffset t [.member name, .index i]

/-- Number of elements of the array member `name`. -/
def slotCount (t : CType) (name : String) : Option Nat :=
  match t.find name with
  | some (_, .array _ n) => some n
  | _ => none

/-- Size in bytes of one element of the array member `name`. -/
def slotSize (t : CType) (name : String) : Option Nat :=
  match t.find name with
  | some (_, .array e _) => some e.sizeof
  | _ => none

/-! ## Object values

An object of `n` bytes is the little-endian integer of its bytes, so the
member that starts at bit `pos` and is `width` bits wide is the bit range
`[pos, pos + width)` of the enclosing object. -/

/-- Mask of `width` one bits starting at bit `pos`. -/
def fieldMask (pos width : Nat) : Nat := (2 ^ width - 1) <<< pos

/-- Read the bit range `[pos, pos + width)`. -/
def readBits (pos width obj : Nat) : Nat := (obj >>> pos) &&& (2 ^ width - 1)

/-- Write `v` to the bit range `[pos, pos + width)`: clear the range, then
or in the value truncated to the range. -/
def writeBits (pos width v obj : Nat) : Nat :=
  (obj ^^^ (obj &&& fieldMask pos width)) ||| ((v <<< pos) &&& fieldMask pos width)

/-- Read the member `name` of an object of type `t`. -/
def CType.get (t : CType) (name : String) (obj : Nat) : Option Nat :=
  match t.find name with
  | some (pos, ty) => some (readBits pos ty.bits obj)
  | none => none

/-- Assign `v` to the member `name` of an object of type `t`. -/
def CType.set (t : CType) (name : String) (v obj : Nat) : Option Nat :=
  match t.find name with
  | some (pos, ty) => some (writeBits pos ty.bits v obj)
  | none => none

/-- Read through an access path. -/
def load (t : CType) (path : List Step) (obj : Nat) : Option Nat :=
  match extent t path with
  | some (pos, width) => some (readBits pos width obj)
  | none => none

/-- Assign through an access path. -/
def store (t : CType) (path : List Step) (v obj : Nat) : Option Nat :=
  match extent t path with
  | some (pos, width) => some (writeBits pos width v obj)
  | none => none

/-! ## Macros of `toolchain.h` -/

/-- Modelled from the spec: `ATTR_PACKED` of toolchain.h, which is not in the
source tree; it marks a struct as packed, so that its members are laid out in
declaration order without padding. -/
@[reducible] def ATTR_PACKED : Bool := true

/-- Modelled from the spec: `RESERVED_WORDS(n)` of toolchain.h, which is not in
the source tree; it reserves `n` 32-bit words (`4*n` bytes) that no name refers to. -/
def RESERVED_WORDS (n : Nat) : Member := .unnamed (.array .uint32_t n)

/-- Modelled from the spec: `ASSERT_OFFSET(type, member, offset)` of toolchain.h,
which is not in the source tree; a static assertion that the computed offset of
`member` equals `offset`. -/
def ASSERT_OFFSET (t : CType) (member : String) (offset : Nat) : Bool :=
  offsetof t member == some offset

/-! ## The declarations of `sct.h` -/

/-- Register with a low and a high component (lines 15-21). -/
def split_register_t : CType :=
  .union [
    .named "all" .uint32_t,
    .unnamed (.struct ATTR_PACKED [
      .named "high" .uint16_t,
      .named "low" .uint16_t ]) ]

/-- The anonymous predicate word of an event record (lines 28-41). -/
def event_predicates : CType :=
  .struct false [
    .named "associated_match_register" (.bitfield .uint32_t 4),
    .named "associated_with_high_register" (.bitfield .uint32_t 1),
    .named "controls_output" (.bitfield .uint32_t 1),
    .named "associated_io_pin" (.bitfield .uint32_t 4),
    .named "associated_io_condition" (.bitfield .uint32_t 2),
    .named "condition" (.bitfield .uint32_t 2),
    .named "load_state" (.bitfield .uint32_t 1),
    .named "next_state" (.bitfield .uint32_t 5),
    .unnamed (.bitfield .uint32_t 12) ]

/-- Event record (lines 24-42). -/
def event_registers_t : CType :=
  .struct ATTR_PACKED [
    .named "enabled_in_state" .uint32_t,
    .unnamed event_predicates ]

/-- Output record (lines 44-47). -/
def output_registers_t : CType :=
  .struct ATTR_PACKED [
    .named "set" .uint32_t,
    .named "clear" .uint32_t ]

/-- Values of `io_condition_t` (lines 51-56). -/
def IO_CONDITION_LOW : Nat := 0
def IO_CONDITION_RISE : Nat := 1
def IO_CONDITION_FALL : Nat := 2
def IO_CONDITION_HIGH : Nat := 3

/-- Values of `sct_clock_mode_t` (lines 59-63). -/
def SCT_COUNT_ON_BUS_CLOCK : Nat := 0
def SCT_COUNT_ON_INPUT : Nat := 1
def SCT_RUN_OFF_INPUT_CLOCK : Nat := 2

/-- Combination modes (lines 67-72). -/
def ON_MATCH_OR_IO : Nat := 0
def ON_MATCH : Nat := 1
def ON_IO : Nat := 2
def ON_MATCH_AND_IO : Nat := 3

/-- Clock input constants (lines 74-78). -/
def SCT_CLK_INPUT_RISING : Nat := 0
def SCT_CLK_INPUT_FALLING : Nat := 1
def SCT_CLK_INPUT_SHIFT : Nat := 1

/-- Control register of one counter half (lines 81-89). -/
def sct_control_register_t : CType :=
  .struct ATTR_PACKED [
    .named "counter_should_count_down" (.bitfield .uint16_t 1),
    .named "pause_counter" (.bitfield .uint16_t 1),
    .named "halt_sct" (.bitfield .uint16_t 1),
    .named "clear_counter_value" (.bitfield .uint16_t 1),
    .named "counter_switches_direction_on_overflow" (.bitfield .uint16_t 1),
    .named "count_prescaler" (.bitfield .uint16_t 8),
    .unnamed (.bitfield .uint16_t 3) ]

/-- The anonymous general configuration word of the block (lines 101-119). -/
def general_configuration : CType :=
  .struct false [
    .named "use_both_halves_as_one" (.bitfield .uint32_t 1),
    .named "clock_mode" (.bitfield .uint32_t 2),
    .named "clock_on_falling_edges" (.bitfield .uint32_t 1),
    .named "clock_input_number" (.bitfield .uint32_t 3),
    .named "prevent_lower_half_from_reloading" (.bitfield .uint32_t 1),
    .named "prevent_upper_half_from_reloading" (.bitfield .uint32_t 1),
    .named "synchronize_input_0" (.bitfield .uint32_t 1),
    .named "synchronize_input_1" (.bitfield .uint32_t 1),
    .named "synchronize_input_2" (.bitfield .uint32_t 1),
    .named "synchronize_input_3" (.bitfield .uint32_t 1),
    .named "synchronize_input_4" (.bitfield .uint32_t 1),
    .named "synchronize_input_5" (.bitfield .uint32_t 1),
    .named "synchronize_input_6" (.bitfield .uint32_t 1),
    .named "synchronize_input_7" (.bitfield .uint32_t 1),
    .unnamed (.bitfield .uint32_t 15) ]

/-- Members of `platform_sct_register_block_t`, in declaration order (lines 96-235). -/
def sct_members : List Member := [
  .unnamed general_configuration,
  .unnamed (.union [
    .named "control" sct_control_register_t,
    .named "control_low" sct_control_register_t ]),
  .named "control_high" sct_control_register_t,
  .named "clear_counter_on_event" split_register_t,
  .named "halt_on_event" split_register_t,
  .named "stop_on_event" split_register_t,
  .named "start_on_event" split_register_t,
  RESERVED_WORDS 10,
  .unnamed (.union [
    .named "count" .uint32_t,
    .unnamed (.struct false [
      .named "count_low" .uint16_t,
      .named "count_high" .uint16_t ]) ]),
  .unnamed (.union [
    .named "state" .uint32_t,
    .unnamed (.struct false [
      .named "state_low" .uint16_t,
      .named "state_high" .uint16_t ]) ]),
  .named "raw_inputs" .uint16_t,
  .named "synchronized_inputs" .uint16_t,
  .named "use_register_for_capture" split_register_t,
  .named "raw_outputs" .uint32_t,
  .named "output_control" .uint32_t,
  .named "conflict_resolution" .uint32_t,
  .named "issue_dma_request_on_event" (.array .uint32_t 2),
  RESERVED_WORDS 35,
  .named "interrupt_on_event" .uint32_t,
  .named "event_occurred" .uint32_t,
  .named "conflict_enable" .uint32_t,
  .named "conflict_flag" .uint32_t,
  .unnamed (.union [
    .named "match" (.array split_register_t 16),
    .named "capture" (.array split_register_t 16) ]),
  RESERVED_WORDS 16,
  .unnamed (.union [
    .named "match_alias_low" (.array .uint32_t 16),
    .named "capture_alias_low" (.array .uint32_t 16) ]),
  .unnamed (.union [
    .named "match_alias_high" (.array .uint32_t 16),
    .named "capture_alias_high" (.array .uint32_t 16) ]),
  .unnamed (.union [
    .named "reset_on_event" (.array split_register_t 16),
    .named "capture_on_events" (.array split_register_t 16) ]),
  RESERVED_WORDS 16,
  .named "capture_control_alias_low" (.array .uint32_t 16),
  .named "capture_control_alias_high" (.array .uint32_t 16),
  .named "event" (.array event_registers_t 16),
  RESERVED_WORDS 96,
  .named "output_on_event" (.array output_registers_t 16) ]

/-- Registers that control the state configurable timer (lines 96-235). -/
def platform_sct_register_block_t : CType := .struct ATTR_PACKED sct_members

/-- The seven offset assertions of lines 237-243, applied to a block type. -/
def sct_offset_assertions (t : CType) : Bool :=
  ASSERT_OFFSET t "start_on_event" 0x014 &&
  ASSERT_OFFSET t "count" 0x040 &&
  ASSERT_OFFSET t "interrupt_on_event" 0x0f0 &&
  ASSERT_OFFSET t "match_alias_low" 0x180 &&
  ASSERT_OFFSET t "capture_control_alias_low" 0x280 &&
  ASSERT_OFFSET t "event" 0x300 &&
  ASSERT_OFFSET t "output_on_event" 0x500

mutual
/-- Member names visible in a struct or union, in declaration order. -/
def CType.names : CType → List String
  | .struct _ ms => listNames ms
  | .union ms => listNames ms
  | _ => []
/-- Names a member declaration brings into the enclosing scope. -/
def Member.names : Member → List String
  | .named n _ => [n]
  | .unnamed t => t.names
/-- Names declared by a member list. -/
def listNames : List Member → List String
  | [] => []
  | m :: rest => m.names ++ listNames rest
end

/-- Whether members `a` and `b` of `t` both exist and occupy disjoint bit ranges. -/
def disjointMembers (t : CType) (a b : String) : Bool :=
  match t.find a, t.find b with
  | some (p, ta), some (q, tb) => decide (q + tb.bits ≤ p) || decide (p + ta.bits ≤ q)
  | _, _ => false

/-- Whether member `a` of `t` exists and lies inside the object. -/
def memberWithin (t : CType) (a : String) : Bool :=
  match t.find a with
  | some (p, ta) => decide (p + ta.bits ≤ t.bits)
  | none => false

/-- Sizes in bits of the direct members of a struct or union, in declaration order. -/
def CType.memberBits : CType → List Nat
  | .struct _ ms => ms.map Member.bits
  | .union ms => ms.map Member.bits
  | _ => []

/-- Start positions in bits of struct members laid out from `cursor`. -/
def structStarts (packed : Bool) : Nat → List Member → List Nat
  | _, [] => []
  | cursor, m :: rest =>
    m.place packed cursor :: structStarts packed (m.place packed cursor + m.bits) rest

/-- Start positions in bits of the direct members of a struct or union, in
declaration order. -/
def CType.memberStarts : CType → List Nat
  | .struct packed ms => structStarts packed 0 ms
  | .union ms => ms.map (fun _ => 0)
  | _ => []

/-! ## Scenarios and layout variants -/

/-- The predicate (control) word of an event record value: the second 32-bit
word, at byte offset 4, after `enabled_in_state`. -/
def event_control_word (record : Nat) : Nat := readBits 32 32 record

/-- The configuration scenario on an event record: compare against match
register 2, fire on match only, go to state 5 and load it, enabled in state 0
only. -/
def configure_event (record : Nat) : Option Nat := do
  let r1 ← event_registers_t.set "associated_match_register" 2 record
  let r2 ← event_registers_t.set "condition" ON_MATCH r1
  let r3 ← event_registers_t.set "next_state" 5 r2
  let r4 ← event_registers_t.set "load_state" 1 r3
  event_registers_t.set "enabled_in_state" 0x00000001 r4

/-- Whether bit `i` lies in the bit range `[pos, pos + width)`. -/
def inRange (pos width i : Nat) : Prop := pos ≤ i ∧ i < pos + width

instance (pos width i : Nat) : Decidable (inRange pos width i) := by
  unfold inRange; infer_instance

end Sct

namespace Sct

set_option maxRecDepth 100000

/-! ## Bit ranges -/

theorem testBit_fieldMask (p w i : Nat) :
    (fieldMask p w).testBit i = (decide (p ≤ i) && decide (i < p + w)) := by
  unfold fieldMask
  rw [Nat.testBit_shiftLeft, Nat.testBit_two_pow_sub_one]
  by_cases h : p ≤ i
  · by_cases h2 : i < p + w
    · have : i - p < w := by omega
      simp [h, h2, this]
    · have : ¬ (i - p < w) := by omega
      simp [h, h2, this]
  · simp [h]

theorem testBit_readBits (p w x i : Nat) :
    (readBits p w x).testBit i = (decide (i < w) && x.testBit (p + i)) := by
  unfold readBits
  rw [Nat.testBit_and, Nat.testBit_shiftRight, Nat.testBit_two_pow_sub_one, Bool.and_comm]

theorem testBit_writeBits (p w v x i : Nat) :
    (writeBits p w v x).testBit i =
      if p ≤ i ∧ i < p + w then v.testBit (i - p) else x.testBit i := by
  unfold writeBits
  rw [Nat.testBit_or, Nat.testBit_xor, Nat.testBit_and, Nat.testBit_and, testBit_fieldMask,
    Nat.testBit_shiftLeft]
  by_cases h : p ≤ i
  · by_cases h2 : i < p + w
    · simp [h, h2]
    · simp [h, h2]
  · simp [h]

theorem readBits_writeBits_same (p w v x : Nat) :
    readBits p w (writeBits p w v x) = v % 2 ^ w := by
  apply Nat.eq_of_testBit_eq
  intro i
  rw [testBit_readBits, testBit_writeBits, Nat.testBit_mod_two_pow]
  by_cases h : i < w
  · have h1 : p ≤ p + i ∧ p + i < p + w := ⟨by omega, by omega⟩
    have h2 : p + i - p = i := by omega
    simp [h, h1, h2]
  · simp [h]

theorem readBits_writeBits_disjoint (p w q u v x : Nat) (h : q + u ≤ p ∨ p + w ≤ q) :
    readBits q u (writeBits p w v x) = readBits q u x := by
  apply Nat.eq_of_testBit_eq
  intro i
  rw [testBit_readBits, testBit_readBits, testBit_writeBits]
  by_cases hi : i < u
  · have h1 : ¬ (p ≤ q + i ∧ q + i < p + w) := by omega
    simp [hi, h1]
  · simp [hi]

theorem testBit_writeBits_outside (p w v x i : Nat) (h : ¬ inRange p w i) :
    (writeBits p w v x).testBit i = x.testBit i := by
  rw [testBit_writeBits]
  exact if_neg h

theorem writeBits_lt (p w v x n : Nat) (hx : x < 2 ^ n) (h : p + w ≤ n) :
    writeBits p w v x < 2 ^ n := by
  apply Nat.lt_pow_two_of_testBit
  intro i hi
  rw [testBit_writeBits]
  have h1 : ¬ (p ≤ i ∧ i < p + w) := by omega
  rw [if_neg h1]
  exact Nat.testBit_lt_two_pow (lt_of_lt_of_le hx (Nat.pow_le_pow_right (by decide) hi))

theorem readBits_lt (p w x : Nat) : readBits p w x < 2 ^ w := by
  unfold readBits
  exact lt_of_le_of_lt Nat.and_le_right (Nat.sub_lt (Nat.two_pow_pos w) (by decide))

theorem readBits_eq (p w x : Nat) : readBits p w x = x / 2 ^ p % 2 ^ w := by
  unfold readBits
  rw [Nat.and_pow_two_sub_one_eq_mod, Nat.shiftRight_eq_div_pow]

/-! ## Layout of the register block -/

/-- C1: with the members laid out packed in declaration order (unions as large
as their largest member, `RESERVED_WORDS(n)` taking `4*n` bytes), the computed
byte offset of each of the seven asserted anchors equals its documented value,
so all seven `ASSERT_OFFSET` checks hold. -/
theorem anchors_at_documented_offsets :
    offsetof platform_sct_register_block_t "start_on_event" = some 0x014 ∧
    offsetof platform_sct_register_block_t "count" = some 0x040 ∧
    offsetof platform_sct_register_block_t "interrupt_on_event" = some 0x0F0 ∧
    offsetof platform_sct_register_block_t "match_alias_low" = some 0x180 ∧
    offsetof platform_sct_register_block_t "capture_control_alias_low" = some 0x280 ∧
    offsetof platform_sct_register_block_t "event" = some 0x300 ∧
    offsetof platform_sct_register_block_t "output_on_event" = some 0x500 ∧
    sct_offset_assertions platform_sct_register_block_t = true ∧
    (∀ n, (RESERVED_WORDS n).bits = 8 * (4 * n)) ∧
    (split_register_t.sizeof = 4 ∧ sct_control_register_t.sizeof = 2 ∧
      general_configuration.sizeof = 4) := by
  refine ⟨by rfl, by rfl, by rfl, by rfl, by rfl, by rfl, by rfl, by rfl, ?_, by decide⟩
  intro n
  simp only [RESERVED_WORDS, Member.bits, CType.bits]
  omega

/-- C2: the register block is exactly 0x580 bytes: its last member,
`output_on_event`, is 16 slots of 8 bytes (128 bytes), starts at 0x500 and
ends at 0x580, and nothing follows it. -/
theorem block_size_is_0x580 :
    platform_sct_register_block_t.sizeof = 0x580 ∧
    output_registers_t.sizeof = 8 ∧
    sct_members.getLast? = some (.named "output_on_event" (.array output_registers_t 16)) ∧
    (CType.array output_registers_t 16).sizeof = 128 ∧
    offsetof platform_sct_register_block_t "output_on_event" = some 0x500 ∧
    0x500 + (CType.array output_registers_t 16).sizeof = 0x580 ∧
    structEnd true 0 sct_members = 8 * 0x580 := by
  refine ⟨by rfl, by rfl, by rfl, by rfl, by rfl, by rfl, by rfl⟩

/-! ## Event records -/

theorem readBits_readBits (p w q u x : Nat) (h : p + w ≤ u) :
    readBits p w (readBits q u x) = readBits (q + p) w x := by
  apply Nat.eq_of_testBit_eq
  intro i
  rw [testBit_readBits, testBit_readBits, testBit_readBits]
  by_cases hi : i < w
  · have h1 : p + i < u := by omega
    simp [hi, h1, Nat.add_assoc]
  · simp [hi]

theorem find_enabled_in_state :
    event_registers_t.find "enabled_in_state" = some (0, .uint32_t) := by rfl

theorem find_associated_match_register :
    event_registers_t.find "associated_match_register" = some (32, .bitfield .uint32_t 4) := by rfl

theorem find_condition :
    event_registers_t.find "condition" = some (44, .bitfield .uint32_t 2) := by rfl

theorem find_load_state :
    event_registers_t.find "load_state" = some (46, .bitfield .uint32_t 1) := by rfl

theorem find_next_state :
    event_registers_t.find "next_state" = some (47, .bitfield .uint32_t 5) := by rfl

theorem configure_event_eq (record : Nat) :
    configure_event record = some (writeBits 0 32 1 (writeBits 46 1 1 (writeBits 47 5 5
      (writeBits 44 2 1 (writeBits 32 4 2 record))))) := by
  simp only [configure_event, CType.set, find_enabled_in_state, find_associated_match_register,
    find_condition, find_load_state, find_next_state, CType.bits, ON_MATCH]
  rfl

/-- C3 (as stated, refuted): after the scenario on a cleared event record the
control word is 0x0002D002; its bits 14-15 hold 0b11 (load_state and the low
bit of next_state) and its bits 17-21 hold 0b00001, not the condition code
0b01 and the state number 0b00101. -/
theorem configure_event_bits_14_17_counterexample :
    configure_event 0 = some 0x0002D00200000001 ∧
    event_control_word 0x0002D00200000001 = 0x0002D002 ∧
    ¬ (readBits 0 4 (event_control_word 0x0002D00200000001) = 0b0010 ∧
       readBits 14 2 (event_control_word 0x0002D00200000001) = 0b01 ∧
       readBits 17 5 (event_control_word 0x0002D00200000001) = 0b00101 ∧
       readBits 0 32 0x0002D00200000001 = 0x00000001) := by
  refine ⟨by rfl, by rfl, ?_⟩
  decide

/-- C3 (amended): configuring an event record, whatever it held before, with
associated_match_register = 2, condition = ON_MATCH, next_state = 5,
load_state = 1 and only state 0 enabled puts associated_match_register in
bits 0-3 of the control word (0b0010), condition in bits 12-13 (0b01),
load_state in bit 14 and next_state in bits 15-19 (0b00101), and makes the
enabled_in_state word 0x00000001. -/
theorem configure_event_encoding (record : Nat) :
    ∃ r, configure_event record = some r ∧
      event_predicates.find "associated_match_register" = some (0, .bitfield .uint32_t 4) ∧
      event_predicates.find "condition" = some (12, .bitfield .uint32_t 2) ∧
      event_predicates.find "load_state" = some (14, .bitfield .uint32_t 1) ∧
      event_predicates.find "next_state" = some (15, .bitfield .uint32_t 5) ∧
      readBits 0 4 (event_control_word r) = 0b0010 ∧
      readBits 12 2 (event_control_word r) = 0b01 ∧
      readBits 14 1 (event_control_word r) = 1 ∧
      readBits 15 5 (event_control_word r) = 0b00101 ∧
      event_registers_t.get "enabled_in_state" r = some 0x00000001 ∧
      event_registers_t.get "associated_match_register" r = some 2 ∧
      event_registers_t.get "condition" r = some ON_MATCH ∧
      event_registers_t.get "load_state" r = some 1 ∧
      event_registers_t.get "next_state" r = some 5 := by
  refine ⟨_, configure_event_eq record, by rfl, by rfl, by rfl, by rfl, ?_⟩
  have amr : readBits 32 4 (writeBits 0 32 1 (writeBits 46 1 1 (writeBits 47 5 5
      (writeBits 44 2 1 (writeBits 32 4 2 record))))) = 2 := by
    rw [readBits_writeBits_disjoint _ _ _ _ _ _ (by omega),
      readBits_writeBits_disjoint _ _ _ _ _ _ (by omega),
      readBits_writeBits_disjoint _ _ _ _ _ _ (by omega),
      readBits_writeBits_disjoint _ _ _ _ _ _ (by omega), readBits_writeBits_same]
    rfl
  have cond : readBits 44 2 (writeBits 0 32 1 (writeBits 46 1 1 (writeBits 47 5 5
      (writeBits 44 2 1 (writeBits 32 4 2 record))))) = 1 := by
    rw [readBits_writeBits_disjoint _ _ _ _ _ _ (by omega),
      readBits_writeBits_disjoint _ _ _ _ _ _ (by omega),
      readBits_writeBits_disjoint _ _ _ _ _ _ (by omega), readBits_writeBits_same]
    rfl
  have ld : readBits 46 1 (writeBits 0 32 1 (writeBits 46 1 1 (writeBits 47 5 5
      (writeBits 44 2 1 (writeBits 32 4 2 record))))) = 1 := by
    rw [readBits_writeBits_disjoint _ _ _ _ _ _ (by omega), readBits_writeBits_same]
    rfl
  have nxt : readBits 47 5 (writeBits 0 32 1 (writeBits 46 1 1 (writeBits 47 5 5
      (writeBits 44 2 1 (writeBits 32 4 2 record))))) = 5 := by
    rw [readBits_writeBits_disjoint _ _ _ _ _ _ (by omega),
      readBits_writeBits_disjoint _ _ _ _ _ _ (by omega), readBits_writeBits_same]
    rfl
  have en : readBits 0 32 (writeBits 0 32 1 (writeBits 46 1 1 (writeBits 47 5 5
      (writeBits 44 2 1 (writeBits 32 4 2 record))))) = 1 := by
    rw [readBits_writeBits_same]
    rfl
  simp only [event_control_word, CType.get, find_enabled_in_state,
    find_associated_match_register, find_condition, find_load_state, find_next_state,
    CType.bits, ON_MATCH]
  rw [readBits_readBits _ _ _ _ _ (by omega), readBits_readBits _ _ _ _ _ (by omega),
    readBits_readBits _ _ _ _ _ (by omega), readBits_readBits _ _ _ _ _ (by omega)]
  exact ⟨amr, cond, ld, nxt, by rw [en], by rw [amr], by rw [cond], by rw [ld], by rw [nxt]⟩

/-! ## Split registers -/

theorem find_split_all : split_register_t.find "all" = some (0, .uint32_t) := by rfl

theorem find_split_high : split_register_t.find "high" = some (0, .uint16_t) := by rfl

theorem find_split_low : split_register_t.find "low" = some (16, .uint16_t) := by rfl

theorem readBits_full (n x : Nat) (h : x < 2 ^ n) : readBits 0 n x = x := by
  rw [readBits_eq]
  simp [Nat.mod_eq_of_lt h]

/-- C4: for every 32-bit split register value and every 16-bit value `v`,
writing `v` through `low` makes `low` read `v`, leaves `high` unchanged and
leaves every bit of `all` outside the 16 bits of `low` unchanged;
symmetrically for a write through `high`; and every bit of `all` belongs to
exactly one of the two half-views. -/
theorem split_register_half_writes (r v : Nat) (hr : r < 2 ^ 32) (hv : v < 2 ^ 16) :
    (∃ r1, split_register_t.set "low" v r = some r1 ∧
      split_register_t.get "low" r1 = some v ∧
      split_register_t.get "high" r1 = split_register_t.get "high" r ∧
      split_register_t.get "all" r = some r ∧
      split_register_t.get "all" r1 = some r1 ∧
      split_register_t.find "low" = some (16, .uint16_t) ∧
      ∀ i, ¬ inRange 16 16 i → r1.testBit i = r.testBit i) ∧
    (∃ r2, split_register_t.set "high" v r = some r2 ∧
      split_register_t.get "high" r2 = some v ∧
      split_register_t.get "low" r2 = split_register_t.get "low" r ∧
      split_register_t.get "all" r2 = some r2 ∧
      split_register_t.find "high" = some (0, .uint16_t) ∧
      ∀ i, ¬ inRange 0 16 i → r2.testBit i = r.testBit i) ∧
    split_register_t.find "all" = some (0, .uint32_t) ∧
    disjointMembers split_register_t "low" "high" = true ∧
    ∀ i, inRange 0 32 i ↔ (inRange 16 16 i ∧ ¬ inRange 0 16 i) ∨ (inRange 0 16 i ∧ ¬ inRange 16 16 i) := by
  have hv16 : v % 2 ^ 16 = v := Nat.mod_eq_of_lt hv
  refine ⟨⟨writeBits 16 16 v r, ?_, ?_, ?_, ?_, ?_, find_split_low, ?_⟩,
    ⟨writeBits 0 16 v r, ?_, ?_, ?_, ?_, find_split_high, ?_⟩, find_split_all, by rfl, ?_⟩
  · simp only [CType.set, find_split_low, CType.bits]
  · simp only [CType.get, find_split_low, CType.bits, readBits_writeBits_same, hv16]
  · simp only [CType.get, find_split_high, CType.bits]
    rw [readBits_writeBits_disjoint _ _ _ _ _ _ (by omega)]
  · simp only [CType.get, find_split_all, CType.bits, readBits_full 32 r hr]
  · simp only [CType.get, find_split_all, CType.bits]
    rw [readBits_full 32 _ (writeBits_lt 16 16 v r 32 hr (by omega))]
  · intro i hi
    exact testBit_writeBits_outside 16 16 v r i hi
  · simp only [CType.set, find_split_high, CType.bits]
  · simp only [CType.get, find_split_high, CType.bits, readBits_writeBits_same, hv16]
  · simp only [CType.get, find_split_low, CType.bits]
    rw [readBits_writeBits_disjoint _ _ _ _ _ _ (by omega)]
  · simp only [CType.get, find_split_all, CType.bits]
    rw [readBits_full 32 _ (writeBits_lt 0 16 v r 32 hr (by omega))]
  · intro i hi
    exact testBit_writeBits_outside 0 16 v r i hi
  · intro i
    unfold inRange
    omega

/-- Witness for C4: the register 0x12345678 and the half value 0xABCD. -/
theorem split_register_half_writes_witness :
    (0x12345678 < 2 ^ 32 ∧ 0xABCD < 2 ^ 16) ∧
    split_register_t.set "low" 0xABCD 0x12345678 = some 0xABCD5678 ∧
    ∃ r1, split_register_t.set "low" 0xABCD 0x12345678 = some r1 ∧
      split_register_t.get "low" r1 = some 0xABCD ∧
      split_register_t.get "high" r1 = split_register_t.get "high" 0x12345678 :=
  ⟨⟨by decide, by decide⟩, by rfl,
    match (split_register_half_writes 0x12345678 0xABCD (by decide) (by decide)).1 with
    | ⟨r1, h1, h2, h3, _⟩ => ⟨r1, h1, h2, h3⟩⟩

/-- C5 (code evaluated): in `split_register_t` the member `high` is declared
first, so on the little-endian target `high` is bits 0-15 of `all` and `low`
is bits 16-31: a register whose whole-word view is 0x0000FFFF reads 0 through
`low` and 0xFFFF through `high`, and writing 1 through `low` makes `all`
0x00010000. In the `count` and `state` unions of the same header the `_low`
member is declared first and is bits 0-15. -/
theorem split_register_low_is_upper_half :
    split_register_t.find "high" = some (0, .uint16_t) ∧
    split_register_t.find "low" = some (16, .uint16_t) ∧
    split_register_t.get "all" 0x0000FFFF = some 0x0000FFFF ∧
    split_register_t.get "low" 0x0000FFFF = some 0 ∧
    split_register_t.get "high" 0x0000FFFF = some 0xFFFF ∧
    split_register_t.set "low" 1 0 = some 0x00010000 ∧
    platform_sct_register_block_t.find "count" = some (8 * 0x040, .uint32_t) ∧
    platform_sct_register_block_t.find "count_low" = some (8 * 0x040, .uint16_t) ∧
    platform_sct_register_block_t.find "count_high" = some (8 * 0x040 + 16, .uint16_t) ∧
    platform_sct_register_block_t.find "state" = some (8 * 0x044, .uint32_t) ∧
    platform_sct_register_block_t.find "state_low" = some (8 * 0x044, .uint16_t) ∧
    platform_sct_register_block_t.find "state_high" = some (8 * 0x044 + 16, .uint16_t) := by
  refine ⟨by rfl, by rfl, by rfl, by rfl, by rfl, by rfl, by rfl, by rfl, by rfl, by rfl,
    by rfl, by rfl⟩

/-! ## Bit-field words -/

theorem find_of_memberWithin (t : CType) (a : String) (h : memberWithin t a = true) :
    ∃ pos ty, t.find a = some (pos, ty) ∧ pos + ty.bits ≤ t.bits := by
  unfold memberWithin at h
  cases hf : t.find a with
  | none => simp [hf] at h
  | some r =>
    obtain ⟨p, ta⟩ := r
    simp only [hf, decide_eq_true_eq] at h
    exact ⟨p, ta, rfl, h⟩

theorem get_set_of_disjoint (t : CType) (a b : String) (h : disjointMembers t a b = true)
    (v w w1 : Nat) (hs : t.set a v w = some w1) : t.get b w1 = t.get b w := by
  unfold disjointMembers at h
  unfold CType.set at hs
  unfold CType.get
  cases ha : t.find a with
  | none => simp [ha] at hs
  | some ra =>
    cases hb : t.find b with
    | none => rfl
    | some rb =>
      obtain ⟨p, ta⟩ := ra
      obtain ⟨q, tb⟩ := rb
      simp only [ha, hb, Bool.or_eq_true, decide_eq_true_eq] at h
      simp only [ha, Option.some.injEq] at hs
      subst hs
      simp only [readBits_writeBits_disjoint p ta.bits q tb.bits v w h]

theorem word_frame (t : CType)
    (hw : ∀ a ∈ t.names, memberWithin t a = true)
    (hd : ∀ a ∈ t.names, ∀ b ∈ t.names, b ≠ a → disjointMembers t a b = true) :
    ∀ name ∈ t.names, ∃ pos ty, t.find name = some (pos, ty) ∧ pos + ty.bits ≤ t.bits ∧
      ∀ v w, ∃ w1, t.set name v w = some w1 ∧
        (∀ i, ¬ inRange pos ty.bits i → w1.testBit i = w.testBit i) ∧
        (∀ other ∈ t.names, other ≠ name → t.get other w1 = t.get other w) ∧
        t.get name w1 = some (v % 2 ^ ty.bits) := by
  intro name hn
  obtain ⟨pos, ty, hf, hle⟩ := find_of_memberWithin t name (hw name hn)
  refine ⟨pos, ty, hf, hle, fun v w => ⟨writeBits pos ty.bits v w, ?_, ?_, ?_, ?_⟩⟩
  · simp only [CType.set, hf]
  · intro i hi
    exact testBit_writeBits_outside pos ty.bits v w i hi
  · intro other ho hne
    exact get_set_of_disjoint t name other (hd name hn other ho hne) v w _
      (by simp only [CType.set, hf])
  · simp only [CType.get, hf, readBits_writeBits_same]

theorem find_pause_counter :
    sct_control_register_t.find "pause_counter" = some (1, .bitfield .uint16_t 1) := by rfl

theorem find_halt_sct :
    sct_control_register_t.find "halt_sct" = some (2, .bitfield .uint16_t 1) := by rfl

theorem find_count_prescaler :
    sct_control_register_t.find "count_prescaler" = some (5, .bitfield .uint16_t 8) := by rfl

/-- C6: in each of the three bit-field words (the control register, the event
control word, the general configuration word) every named sub-field lies
inside the word, and writing any value to it leaves every bit outside its own
range unchanged, so every sibling field reads as before and the reserved bits
keep their value. In particular, for every control word, after writing a
sentinel to pause_counter and halt_sct and then `p` to count_prescaler, the
two flags still read the sentinel and count_prescaler reads `p mod 256`. -/
theorem bitfield_write_preserves_other_bits :
    (∀ t ∈ [sct_control_register_t, event_predicates, general_configuration],
      ∀ name ∈ t.names, ∃ pos ty, t.find name = some (pos, ty) ∧ pos + ty.bits ≤ t.bits ∧
        ∀ v w, ∃ w1, t.set name v w = some w1 ∧
          (∀ i, ¬ inRange pos ty.bits i → w1.testBit i = w.testBit i) ∧
          (∀ other ∈ t.names, other ≠ name → t.get other w1 = t.get other w) ∧
          t.get name w1 = some (v % 2 ^ ty.bits)) ∧
    (sct_control_register_t.names.length = 6 ∧ event_predicates.names.length = 8 ∧
      general_configuration.names.length = 14) ∧
    (∀ c a b p, ∃ c1 c2 c3,
      sct_control_register_t.set "pause_counter" a c = some c1 ∧
      sct_control_register_t.set "halt_sct" b c1 = some c2 ∧
      sct_control_register_t.set "count_prescaler" p c2 = some c3 ∧
      sct_control_register_t.get "pause_counter" c3 = some (a % 2) ∧
      sct_control_register_t.get "halt_sct" c3 = some (b % 2) ∧
      sct_control_register_t.get "count_prescaler" c3 = some (p % 256) ∧
      (∀ i, ¬ inRange 5 8 i → c3.testBit i = c2.testBit i)) := by
  refine ⟨?_, by decide, ?_⟩
  · intro t ht
    simp only [List.mem_cons, List.mem_singleton, List.not_mem_nil, or_false] at ht
    rcases ht with rfl | rfl | rfl
    · exact word_frame _ (by decide) (by decide)
    · exact word_frame _ (by decide) (by decide)
    · exact word_frame _ (by decide) (by decide)
  · intro c a b p
    refine ⟨writeBits 1 1 a c, writeBits 2 1 b (writeBits 1 1 a c),
      writeBits 5 8 p (writeBits 2 1 b (writeBits 1 1 a c)), ?_, ?_, ?_, ?_, ?_, ?_, ?_⟩
    · simp only [CType.set, find_pause_counter, CType.bits]
    · simp only [CType.set, find_halt_sct, CType.bits]
    · simp only [CType.set, find_count_prescaler, CType.bits]
    · simp only [CType.get, find_pause_counter, CType.bits]
      rw [readBits_writeBits_disjoint _ _ _ _ _ _ (by omega),
        readBits_writeBits_disjoint _ _ _ _ _ _ (by omega), readBits_writeBits_same]
      rfl
    · simp only [CType.get, find_halt_sct, CType.bits]
      rw [readBits_writeBits_disjoint _ _ _ _ _ _ (by omega), readBits_writeBits_same]
      rfl
    · simp only [CType.get, find_count_prescaler, CType.bits]
      rw [readBits_writeBits_same]
      rfl
    · intro i hi
      exact testBit_writeBits_outside 5 8 p _ i hi

/-- Witness for C6: writing 0xFF to count_prescaler of the control word 0x0006
(pause_counter and halt_sct set) gives 0x1FE6, and both flags still read 1. -/
theorem bitfield_write_preserves_other_bits_witness :
    sct_control_register_t ∈ [sct_control_register_t, event_predicates, general_configuration] ∧
    "count_prescaler" ∈ sct_control_register_t.names ∧
    sct_control_register_t.set "count_prescaler" 0xFF 0x0006 = some 0x1FE6 ∧
    sct_control_register_t.get "pause_counter" 0x1FE6 = some 1 ∧
    sct_control_register_t.get "halt_sct" 0x1FE6 = some 1 ∧
    ∃ pos ty, sct_control_register_t.find "count_prescaler" = some (pos, ty) ∧
      pos + ty.bits ≤ sct_control_register_t.bits :=
  ⟨by simp, by decide, by rfl, by rfl, by rfl,
    match bitfield_write_preserves_other_bits.1 sct_control_register_t (by simp)
      "count_prescaler" (by decide) with
    | ⟨pos, ty, h1, h2, _⟩ => ⟨pos, ty, h1, h2⟩⟩

/-! ## Slot arrays -/

/-- C7: every 16-slot array member of the block has its slots back to back:
slot `i + 1` starts exactly one element size after slot `i` for `i` in 0..14
(4 bytes for match/capture, the alias arrays, reset_on_event/capture_on_events
and the capture-control alias arrays; 8 bytes for event and output_on_event),
so slot `i` lies at `base + stride * i` for `i` in 0..15. The twelve names
listed are all the 16-slot array members of the block. -/
theorem array_slot_stride :
    (∀ e ∈ [("match", 0x100), ("capture", 0x100), ("match_alias_low", 0x180),
        ("capture_alias_low", 0x180), ("match_alias_high", 0x1C0),
        ("capture_alias_high", 0x1C0), ("reset_on_event", 0x200),
        ("capture_on_events", 0x200), ("capture_control_alias_low", 0x280),
        ("capture_control_alias_high", 0x2C0)],
      offsetof platform_sct_register_block_t e.1 = some e.2 ∧
      slotCount platform_sct_register_block_t e.1 = some 16 ∧
      slotSize platform_sct_register_block_t e.1 = some 4 ∧
      (∀ i < 15, slotOffset platform_sct_register_block_t e.1 (i + 1) =
        (slotOffset platform_sct_register_block_t e.1 i).map (· + 4)) ∧
      (∀ i < 16, slotOffset platform_sct_register_block_t e.1 i = some (e.2 + 4 * i))) ∧
    (∀ e ∈ [("event", 0x300), ("output_on_event", 0x500)],
      offsetof platform_sct_register_block_t e.1 = some e.2 ∧
      slotCount platform_sct_register_block_t e.1 = some 16 ∧
      slotSize platform_sct_register_block_t e.1 = some 8 ∧
      (∀ i < 15, slotOffset platform_sct_register_block_t e.1 (i + 1) =
        (slotOffset platform_sct_register_block_t e.1 i).map (· + 8)) ∧
      (∀ i < 16, slotOffset platform_sct_register_block_t e.1 i = some (e.2 + 8 * i))) ∧
    (∀ name ∈ platform_sct_register_block_t.names,
      slotCount platform_sct_register_block_t name = some 16 ↔
        name ∈ ["match", "capture", "match_alias_low", "capture_alias_low",
          "match_alias_high", "capture_alias_high", "reset_on_event", "capture_on_events",
          "capture_control_alias_low", "capture_control_alias_high", "event",
          "output_on_event"]) ∧
    (split_register_t.sizeof = 4 ∧ CType.uint32_t.sizeof = 4 ∧
      event_registers_t.sizeof = 8 ∧ output_registers_t.sizeof = 8) := by
  refine ⟨by decide, by decide, by decide, by decide⟩

/-- Witness for C7: slots 7 and 8 of the event array are 8 bytes apart. -/
theorem array_slot_stride_witness :
    ("event", 0x300) ∈ [("event", 0x300), ("output_on_event", 0x500)] ∧ 7 < 15 ∧
    slotOffset platform_sct_register_block_t "event" 7 = some 0x338 ∧
    slotOffset platform_sct_register_block_t "event" (7 + 1) =
      (slotOffset platform_sct_register_block_t "event" 7).map (· + 8) :=
  ⟨by decide, by decide, by rfl,
    (array_slot_stride.2.1 ("event", 0x300) (by decide)).2.2.2.1 7 (by decide)⟩

theorem load_store_same_extent (t : CType) (pa pb : List Step) (pos width : Nat)
    (ha : extent t pa = some (pos, width)) (hb : extent t pb = some (pos, width))
    (v b : Nat) (hv : v < 2 ^ width) :
    ∃ b1, store t pa v b = some b1 ∧ load t pb b1 = some v := by
  refine ⟨writeBits pos width v b, ?_, ?_⟩
  · simp only [store, ha]
  · simp only [load, hb, readBits_writeBits_same, Nat.mod_eq_of_lt hv]

theorem extent_eq_of_map (t : CType) (pa pb : List Step)
    (h : extent t pa = extent t pb ∧ (extent t pa).map Prod.snd = some 32) :
    ∃ pos, extent t pa = some (pos, 32) ∧ extent t pb = some (pos, 32) := by
  obtain ⟨h1, h2⟩ := h
  cases ha : extent t pa with
  | none => simp [ha] at h2
  | some r =>
    obtain ⟨pos, w⟩ := r
    simp only [ha, Option.map_some', Option.some.injEq] at h2
    subst h2
    exact ⟨pos, rfl, by rw [← h1, ha]⟩

/-- C8: match and capture registers share storage. For every `i` in 0..15,
match[i] and capture[i] are both at 0x100 + 4*i, match_alias_low[i] and
capture_alias_low[i] at 0x180 + 4*i, match_alias_high[i] and
capture_alias_high[i] at 0x1C0 + 4*i, reset_on_event[i] and
capture_on_events[i] at 0x200 + 4*i; and a 32-bit value stored through one
name of a pair is the value loaded through the other. -/
theorem match_capture_share_storage :
    (∀ i < 16,
      slotOffset platform_sct_register_block_t "match" i = some (0x100 + 4 * i) ∧
      slotOffset platform_sct_register_block_t "capture" i = some (0x100 + 4 * i) ∧
      slotOffset platform_sct_register_block_t "match_alias_low" i = some (0x180 + 4 * i) ∧
      slotOffset platform_sct_register_block_t "capture_alias_low" i = some (0x180 + 4 * i) ∧
      slotOffset platform_sct_register_block_t "match_alias_high" i = some (0x1C0 + 4 * i) ∧
      slotOffset platform_sct_register_block_t "capture_alias_high" i = some (0x1C0 + 4 * i) ∧
      slotOffset platform_sct_register_block_t "reset_on_event" i = some (0x200 + 4 * i) ∧
      slotOffset platform_sct_register_block_t "capture_on_events" i = some (0x200 + 4 * i)) ∧
    (∀ e ∈ [("match", "capture"), ("capture", "match"),
        ("match_alias_low", "capture_alias_low"), ("capture_alias_low", "match_alias_low"),
        ("match_alias_high", "capture_alias_high"), ("capture_alias_high", "match_alias_high"),
        ("reset_on_event", "capture_on_events"), ("capture_on_events", "reset_on_event")],
      ∀ i < 16, ∀ v b, v < 2 ^ 32 →
        ∃ b1, store platform_sct_register_block_t [.member e.1, .index i] v b = some b1 ∧
          load platform_sct_register_block_t [.member e.2, .index i] b1 = some v) := by
  refine ⟨by decide, ?_⟩
  have key : ∀ e ∈ [("match", "capture"), ("capture", "match"),
        ("match_alias_low", "capture_alias_low"), ("capture_alias_low", "match_alias_low"),
        ("match_alias_high", "capture_alias_high"), ("capture_alias_high", "match_alias_high"),
        ("reset_on_event", "capture_on_events"), ("capture_on_events", "reset_on_event")],
      ∀ i < 16,
        extent platform_sct_register_block_t [.member e.1, .index i] =
          extent platform_sct_register_block_t [.member e.2, .index i] ∧
        (extent platform_sct_register_block_t [.member e.1, .index i]).map Prod.snd =
          some 32 := by decide
  intro e he i hi v b hv
  obtain ⟨pos, ha, hb⟩ := extent_eq_of_map _ _ _ (key e he i hi)
  exact load_store_same_extent _ _ _ pos 32 ha hb v b hv

/-- Witness for C8: 0xDEADBEEF stored through match[5] is loaded through capture[5]. -/
theorem match_capture_share_storage_witness :
    5 < 16 ∧ 0xDEADBEEF < 2 ^ 32 ∧
    slotOffset platform_sct_register_block_t "match" 5 = some 0x114 ∧
    slotOffset platform_sct_register_block_t "capture" 5 = some 0x114 ∧
    ∃ b1, store platform_sct_register_block_t [.member "match", .index 5] 0xDEADBEEF 0 =
        some b1 ∧
      load platform_sct_register_block_t [.member "capture", .index 5] b1 = some 0xDEADBEEF :=
  ⟨by decide, by decide, by rfl, by rfl,
    match_capture_share_storage.2 ("match", "capture") (by decide) 5 (by decide)
      0xDEADBEEF 0 (by decide)⟩

/-! ## Layout variants -/

theorem le_roundUp (c : Nat) : c ≤ roundUp c 8 := by
  unfold roundUp
  omega

theorem find_clock_mode :
    general_configuration.find "clock_mode" = some (1, .bitfield .uint32_t 2) := by rfl

theorem find_clock_input_number :
    general_configuration.find "clock_input_number" = some (4, .bitfield .uint32_t 3) := by rfl

/-- C10: the general configuration word is the first 32-bit word of the block
(offset 0x000) and holds pairwise disjoint fields: use_both_halves_as_one at
bit 0, the 2-bit clock_mode at bits 1-2 (the three clock modes 0, 1, 2 are
distinct and each reads back as written), clock_on_falling_edges at bit 3, the
3-bit clock_input_number at bits 4-6 (a value reads back as written exactly
when it is one of 0..7), the prevent-reload flags at bits 7 and 8, the eight
synchronize_input flags at bits 9-16 and 15 reserved bits; the widths sum to 32. -/
theorem general_configuration_word :
    sct_members.head? = some (.unnamed general_configuration) ∧
    general_configuration.bits = 32 ∧
    Member.place ATTR_PACKED 0 (.unnamed general_configuration) = 0x000 ∧
    (platform_sct_register_block_t.find "use_both_halves_as_one"
        = some (0, .bitfield .uint32_t 1) ∧
      platform_sct_register_block_t.find "clock_mode" = some (1, .bitfield .uint32_t 2) ∧
      platform_sct_register_block_t.find "clock_on_falling_edges"
        = some (3, .bitfield .uint32_t 1) ∧
      platform_sct_register_block_t.find "clock_input_number"
        = some (4, .bitfield .uint32_t 3) ∧
      platform_sct_register_block_t.find "prevent_lower_half_from_reloading"
        = some (7, .bitfield .uint32_t 1) ∧
      platform_sct_register_block_t.find "prevent_upper_half_from_reloading"
        = some (8, .bitfield .uint32_t 1)) ∧
    (platform_sct_register_block_t.find "synchronize_input_0" = some (9, .bitfield .uint32_t 1) ∧
      platform_sct_register_block_t.find "synchronize_input_1" = some (10, .bitfield .uint32_t 1) ∧
      platform_sct_register_block_t.find "synchronize_input_2" = some (11, .bitfield .uint32_t 1) ∧
      platform_sct_register_block_t.find "synchronize_input_3" = some (12, .bitfield .uint32_t 1) ∧
      platform_sct_register_block_t.find "synchronize_input_4" = some (13, .bitfield .uint32_t 1) ∧
      platform_sct_register_block_t.find "synchronize_input_5" = some (14, .bitfield .uint32_t 1) ∧
      platform_sct_register_block_t.find "synchronize_input_6" = some (15, .bitfield .uint32_t 1) ∧
      platform_sct_register_block_t.find "synchronize_input_7"
        = some (16, .bitfield .uint32_t 1)) ∧
    (∀ a ∈ general_configuration.names, ∀ b ∈ general_configuration.names, a ≠ b →
      disjointMembers general_configuration a b = true) ∧
    (general_configuration.memberBits = [1, 2, 1, 3, 1, 1, 1, 1, 1, 1, 1, 1, 1, 1, 15] ∧
      general_configuration.memberBits.sum = 32) ∧
    ([SCT_COUNT_ON_BUS_CLOCK, SCT_COUNT_ON_INPUT, SCT_RUN_OFF_INPUT_CLOCK] = [0, 1, 2] ∧
      [SCT_COUNT_ON_BUS_CLOCK, SCT_COUNT_ON_INPUT, SCT_RUN_OFF_INPUT_CLOCK].Nodup) ∧
    (∀ mode ∈ [SCT_COUNT_ON_BUS_CLOCK, SCT_COUNT_ON_INPUT, SCT_RUN_OFF_INPUT_CLOCK], ∀ w,
      ∃ w1, general_configuration.set "clock_mode" mode w = some w1 ∧
        general_configuration.get "clock_mode" w1 = some mode) ∧
    (∀ n w, ∃ w1, general_configuration.set "clock_input_number" n w = some w1 ∧
      (general_configuration.get "clock_input_number" w1 = some n ↔ n < 8)) := by
  refine ⟨by rfl, by rfl, by rfl, ⟨by rfl, by rfl, by rfl, by rfl, by rfl, by rfl⟩,
    ⟨by rfl, by rfl, by rfl, by rfl, by rfl, by rfl, by rfl, by rfl⟩, by decide, by decide,
    by decide, ?_, ?_⟩
  · intro mode hm w
    refine ⟨writeBits 1 2 mode w, ?_, ?_⟩
    · simp only [CType.set, find_clock_mode, CType.bits]
    · simp only [CType.get, find_clock_mode, CType.bits, readBits_writeBits_same]
      simp only [List.mem_cons, List.mem_singleton, List.not_mem_nil, or_false] at hm
      rcases hm with rfl | rfl | rfl <;> rfl
  · intro n w
    refine ⟨writeBits 4 3 n w, ?_, ?_⟩
    · simp only [CType.set, find_clock_input_number, CType.bits]
    · simp only [CType.get, find_clock_input_number, CType.bits, readBits_writeBits_same,
        Option.some.injEq]
      constructor
      · intro h
        have := Nat.mod_lt n (show 0 < 2 ^ 3 by decide)
        omega
      · intro h
        exact Nat.mod_eq_of_lt (by omega)

/-- Witness for C10: clock mode SCT_RUN_OFF_INPUT_CLOCK written into a word of
all ones reads back as 2. -/
theorem general_configuration_word_witness :
    SCT_RUN_OFF_INPUT_CLOCK ∈ [SCT_COUNT_ON_BUS_CLOCK, SCT_COUNT_ON_INPUT,
      SCT_RUN_OFF_INPUT_CLOCK] ∧
    general_configuration.set "clock_mode" SCT_RUN_OFF_INPUT_CLOCK 0xFFFFFFFF
      = some 0xFFFFFFFD ∧
    ∃ w1, general_configuration.set "clock_mode" SCT_RUN_OFF_INPUT_CLOCK 0xFFFFFFFF = some w1 ∧
      general_configuration.get "clock_mode" w1 = some SCT_RUN_OFF_INPUT_CLOCK :=
  ⟨by decide, by rfl,
    general_configuration_word.2.2.2.2.2.2.2.2.1 SCT_RUN_OFF_INPUT_CLOCK (by decide)
      0xFFFFFFFF⟩

/-! ## Event record and control register layout -/

/-- C12: `event_registers_t` is exactly 8 bytes: the 32-bit enabled_in_state
mask at byte offset 0, then one 32-bit control word at byte offset 4 whose
named fields are packed from bit 0 in declaration order with widths 4, 1, 1,
4, 2, 2, 1, 5: associated_match_register bits 0-3,
associated_with_high_register bit 4, controls_output bit 5, associated_io_pin
bits 6-9, associated_io_condition bits 10-11, condition bits 12-13,
load_state bit 14, next_state bits 15-19, pairwise disjoint, followed by 12
reserved bits 20-31; the widths sum to 32. -/
theorem event_record_layout :
    event_registers_t.sizeof = 8 ∧
    event_registers_t.find "enabled_in_state" = some (0, .uint32_t) ∧
    offsetof event_registers_t "enabled_in_state" = some 0 ∧
    (event_registers_t.memberStarts = [0, 8 * 4] ∧ event_registers_t.memberBits = [32, 32]) ∧
    event_predicates.sizeof = 4 ∧
    (event_predicates.find "associated_match_register" = some (0, .bitfield .uint32_t 4) ∧
      event_predicates.find "associated_with_high_register" = some (4, .bitfield .uint32_t 1) ∧
      event_predicates.find "controls_output" = some (5, .bitfield .uint32_t 1) ∧
      event_predicates.find "associated_io_pin" = some (6, .bitfield .uint32_t 4) ∧
      event_predicates.find "associated_io_condition" = some (10, .bitfield .uint32_t 2) ∧
      event_predicates.find "condition" = some (12, .bitfield .uint32_t 2) ∧
      event_predicates.find "load_state" = some (14, .bitfield .uint32_t 1) ∧
      event_predicates.find "next_state" = some (15, .bitfield .uint32_t 5)) ∧
    (event_predicates.names = ["associated_match_register", "associated_with_high_register",
        "controls_output", "associated_io_pin", "associated_io_condition", "condition",
        "load_state", "next_state"] ∧
      event_predicates.memberStarts = [0, 4, 5, 6, 10, 12, 14, 15, 20] ∧
      event_predicates.memberBits = [4, 1, 1, 4, 2, 2, 1, 5, 12] ∧
      event_predicates.memberBits.sum = 32) ∧
    (∀ f ∈ event_predicates.names,
      extent event_registers_t [.member f] =
        (extent event_predicates [.member f]).map (fun r => (8 * 4 + r.1, r.2))) ∧
    (∀ a ∈ event_predicates.names, ∀ b ∈ event_predicates.names, a ≠ b →
      disjointMembers event_predicates a b = true ∧
      disjointMembers event_registers_t a b = true ∧
      disjointMembers event_registers_t "enabled_in_state" a = true) := by
  refine ⟨by rfl, by rfl, by rfl, by decide, by rfl,
    ⟨by rfl, by rfl, by rfl, by rfl, by rfl, by rfl, by rfl, by rfl⟩, by decide, by decide,
    by decide⟩

/-- Witness for C12: condition and load_state occupy disjoint bits of the control word. -/
theorem event_record_layout_witness :
    "condition" ∈ event_predicates.names ∧ "load_state" ∈ event_predicates.names ∧
    "condition" ≠ "load_state" ∧
    (disjointMembers event_predicates "condition" "load_state" = true ∧
      disjointMembers event_registers_t "condition" "load_state" = true ∧
      disjointMembers event_registers_t "enabled_in_state" "condition" = true) :=
  ⟨by decide, by decide, by decide,
    event_record_layout.2.2.2.2.2.2.2.2 "condition" (by decide) "load_state" (by decide)
      (by decide)⟩

/-- C13: the control registers form one 32-bit word at offset 0x004: `control`
and `control_low` name the same 16-bit register at offset 0x004, and
`control_high` is a separate 16-bit register at offset 0x006 that does not
overlap it. Each `sct_control_register_t` is exactly 16 bits, with
counter_should_count_down at bit 0, pause_counter at bit 1, halt_sct at bit 2,
clear_counter_value at bit 3, counter_switches_direction_on_overflow at bit 4,
the 8-bit count_prescaler at bits 5-12 and 3 reserved bits 13-15, pairwise
disjoint. -/
theorem control_registers_layout :
    (offsetof platform_sct_register_block_t "control" = some 0x004 ∧
      offsetof platform_sct_register_block_t "control_low" = some 0x004 ∧
      offsetof platform_sct_register_block_t "control_high" = some 0x006) ∧
    (extent platform_sct_register_block_t [.member "control"] = some (8 * 0x004, 16) ∧
      extent platform_sct_register_block_t [.member "control_low"] = some (8 * 0x004, 16) ∧
      extent platform_sct_register_block_t [.member "control_high"] = some (8 * 0x006, 16)) ∧
    (disjointMembers platform_sct_register_block_t "control" "control_high" = true ∧
      disjointMembers platform_sct_register_block_t "control_low" "control_high" = true) ∧
    (∀ i, inRange (8 * 0x004) 32 i ↔ (inRange (8 * 0x004) 16 i ∨ inRange (8 * 0x006) 16 i)) ∧
    (∀ v b, v < 2 ^ 16 → ∃ b1,
      store platform_sct_register_block_t [.member "control"] v b = some b1 ∧
      load platform_sct_register_block_t [.member "control_low"] b1 = some v ∧
      load platform_sct_register_block_t [.member "control_high"] b1 =
        load platform_sct_register_block_t [.member "control_high"] b) ∧
    (sct_control_register_t.bits = 16 ∧ sct_control_register_t.sizeof = 2) ∧
    (sct_control_register_t.find "counter_should_count_down"
        = some (0, .bitfield .uint16_t 1) ∧
      sct_control_register_t.find "pause_counter" = some (1, .bitfield .uint16_t 1) ∧
      sct_control_register_t.find "halt_sct" = some (2, .bitfield .uint16_t 1) ∧
      sct_control_register_t.find "clear_counter_value" = some (3, .bitfield .uint16_t 1) ∧
      sct_control_register_t.find "counter_switches_direction_on_overflow"
        = some (4, .bitfield .uint16_t 1) ∧
      sct_control_register_t.find "count_prescaler" = some (5, .bitfield .uint16_t 8)) ∧
    (sct_control_register_t.memberStarts = [0, 1, 2, 3, 4, 5, 13] ∧
      sct_control_register_t.memberBits = [1, 1, 1, 1, 1, 8, 3] ∧
      sct_control_register_t.memberBits.sum = 16) ∧
    (∀ a ∈ sct_control_register_t.names, ∀ b ∈ sct_control_register_t.names, a ≠ b →
      disjointMembers sct_control_register_t a b = true) := by
  refine ⟨by decide, by decide, by decide, ?_, ?_, by decide,
    ⟨by rfl, by rfl, by rfl, by rfl, by rfl, by rfl⟩, by decide, by decide⟩
  · intro i
    unfold inRange
    omega
  · intro v b hv
    have h1 : extent platform_sct_register_block_t [.member "control"] = some (32, 16) := by
      decide
    have h2 : extent platform_sct_register_block_t [.member "control_low"] = some (32, 16) := by
      decide
    have h3 : extent platform_sct_register_block_t [.member "control_high"] = some (48, 16) := by
      decide
    refine ⟨writeBits 32 16 v b, ?_, ?_, ?_⟩
    · simp only [store, h1]
    · simp only [load, h2, readBits_writeBits_same, Nat.mod_eq_of_lt hv]
    · simp only [load, h3]
      rw [readBits_writeBits_disjoint _ _ _ _ _ _ (by omega)]

/-- Witness for C13: 0x1FE6 stored through `control` is read through
`control_low`, and `control_high` keeps its value. -/
theorem control_registers_layout_witness :
    0x1FE6 < 2 ^ 16 ∧
    ∃ b1, store platform_sct_register_block_t [.member "control"] 0x1FE6 0 = some b1 ∧
      load platform_sct_register_block_t [.member "control_low"] b1 = some 0x1FE6 ∧
      load platform_sct_register_block_t [.member "control_high"] b1 =
        load platform_sct_register_block_t [.member "control_high"] 0 :=
  ⟨by decide, control_registers_layout.2.2.2.2.1 0x1FE6 0 (by decide)⟩

/-! ## State and condition encodings -/

theorem find_associated_io_condition :
    event_registers_t.find "associated_io_condition" = some (42, .bitfield .uint32_t 2) := by
  rfl

theorem testBit_one_shiftLeft (s i : Nat) : (1 <<< s).testBit i = decide (s = i) := by
  rw [Nat.one_shiftLeft, Nat.testBit_two_pow]

theorem one_shiftLeft_lt (s n : Nat) (h : s < n) : 1 <<< s < 2 ^ n := by
  rw [Nat.one_shiftLeft]
  exact Nat.pow_lt_pow_right (by decide) h

/-- C14: the state encoding is coherent with 32 addressable states. The 5-bit
next_state field holds exactly the values 0..31 (a value reads back as written
exactly when it is below 32, and every field content is below 32); the
enabled_in_state mask has 32 = 2^5 bits; for every state `s` in 0..31 the gate
bit `1 << s` fits in the mask and sets exactly bit `s`; distinct states have
distinct gate bits, and every bit of the mask is the gate bit of exactly one
state. -/
theorem state_encoding_coherent :
    (event_registers_t.find "next_state" = some (32 + 15, .bitfield .uint32_t 5) ∧
      event_registers_t.find "enabled_in_state" = some (0, .uint32_t)) ∧
    ((extent event_registers_t [.member "next_state"]).map (fun r => 2 ^ r.2) =
      (extent event_registers_t [.member "enabled_in_state"]).map Prod.snd) ∧
    (∀ s r, ∃ r1, event_registers_t.set "next_state" s r = some r1 ∧
      (event_registers_t.get "next_state" r1 = some s ↔ s < 32)) ∧
    (∀ r, ∃ s, s < 32 ∧ event_registers_t.get "next_state" r = some s) ∧
    (∀ s, s < 32 → ∀ r, ∃ r1,
      event_registers_t.set "enabled_in_state" (1 <<< s) r = some r1 ∧
      event_registers_t.get "enabled_in_state" r1 = some (1 <<< s) ∧
      ∀ i, inRange 0 32 i → r1.testBit i = decide (s = i)) ∧
    (∀ s, s < 32 → ∀ t, t < 32 → (1 <<< s : Nat) = 1 <<< t → s = t) ∧
    (∀ i, inRange 0 32 i → ∃ s, s < 32 ∧ ∀ t, t < 32 → ((1 <<< t).testBit i = true ↔ t = s)) := by
  refine ⟨⟨by rfl, by rfl⟩, by decide, ?_, ?_, ?_, ?_, ?_⟩
  · intro s r
    refine ⟨writeBits 47 5 s r, ?_, ?_⟩
    · simp only [CType.set, find_next_state, CType.bits]
    · simp only [CType.get, find_next_state, CType.bits, readBits_writeBits_same,
        Option.some.injEq]
      constructor
      · intro h
        have := Nat.mod_lt s (show 0 < 2 ^ 5 by decide)
        omega
      · intro h
        exact Nat.mod_eq_of_lt (by omega)
  · intro r
    refine ⟨readBits 47 5 r, ?_, ?_⟩
    · have := readBits_lt 47 5 r
      omega
    · simp only [CType.get, find_next_state, CType.bits]
  · intro s hs r
    refine ⟨writeBits 0 32 (1 <<< s) r, ?_, ?_, ?_⟩
    · simp only [CType.set, find_enabled_in_state, CType.bits]
    · simp only [CType.get, find_enabled_in_state, CType.bits, readBits_writeBits_same,
        Nat.mod_eq_of_lt (one_shiftLeft_lt s 32 hs)]
    · intro i hi
      rw [testBit_writeBits, if_pos (by unfold inRange at hi; omega), Nat.sub_zero,
        testBit_one_shiftLeft]
  · intro s _ t _ h
    have h1 : (1 <<< s).testBit s = (1 <<< t).testBit s := by rw [h]
    rw [testBit_one_shiftLeft, testBit_one_shiftLeft] at h1
    simp only [decide_True, true_eq_decide_iff] at h1
    exact h1.symm
  · intro i hi
    refine ⟨i, by unfold inRange at hi; omega, ?_⟩
    intro t _
    rw [testBit_one_shiftLeft]
    simp

/-- Witness for C14: state 5 has gate bit 0x20, which fits in the mask. -/
theorem state_encoding_coherent_witness :
    5 < 32 ∧ (1 <<< 5 : Nat) = 0x20 ∧
    event_registers_t.set "enabled_in_state" (1 <<< 5) 0 = some 0x20 ∧
    ∃ r1, event_registers_t.set "enabled_in_state" (1 <<< 5) 0 = some r1 ∧
      event_registers_t.get "enabled_in_state" r1 = some (1 <<< 5) :=
  ⟨by decide, by decide, by rfl,
    match state_encoding_coherent.2.2.2.2.1 5 (by decide) 0 with
    | ⟨r1, h1, h2, _⟩ => ⟨r1, h1, h2⟩⟩

/-- C15: the condition enumerations are exact encodings of their 2-bit fields.
`io_condition_t` maps level-low, rising edge, falling edge, level-high to 0,
1, 2, 3 and the combination modes match-OR-io, match-only, io-only,
match-AND-io to 0, 1, 2, 3; the values of each enumeration are pairwise
distinct and below 4, so each reads back as written from
associated_io_condition (resp. condition), and every content of either 2-bit
field is the code of exactly one enumerator. -/
theorem condition_enumerations_exact :
    ([IO_CONDITION_LOW, IO_CONDITION_RISE, IO_CONDITION_FALL, IO_CONDITION_HIGH]
        = [0, 1, 2, 3] ∧
      [ ON_MATCH_OR_IO, ON_MATCH, ON_IO, ON_MATCH_AND_IO] = [0, 1, 2, 3]) ∧
    ([IO_CONDITION_LOW, IO_CONDITION_RISE, IO_CONDITION_FALL, IO_CONDITION_HIGH].Nodup ∧
      [ ON_MATCH_OR_IO, ON_MATCH, ON_IO, ON_MATCH_AND_IO].Nodup) ∧
    (event_predicates.find "associated_io_condition" = some (10, .bitfield .uint32_t 2) ∧
      event_predicates.find "condition" = some (12, .bitfield .uint32_t 2)) ∧
    (∀ c ∈ [IO_CONDITION_LOW, IO_CONDITION_RISE, IO_CONDITION_FALL, IO_CONDITION_HIGH],
      c < 4 ∧ ∀ r, ∃ r1, event_registers_t.set "associated_io_condition" c r = some r1 ∧
        event_registers_t.get "associated_io_condition" r1 = some c) ∧
    (∀ c ∈ [ ON_MATCH_OR_IO, ON_MATCH, ON_IO, ON_MATCH_AND_IO],
      c < 4 ∧ ∀ r, ∃ r1, event_registers_t.set "condition" c r = some r1 ∧
        event_registers_t.get "condition" r1 = some c) ∧
    (∀ r, ∃ v, event_registers_t.get "associated_io_condition" r = some v ∧ v < 4 ∧
      [IO_CONDITION_LOW, IO_CONDITION_RISE, IO_CONDITION_FALL, IO_CONDITION_HIGH].count v = 1) ∧
    (∀ r, ∃ v, event_registers_t.get "condition" r = some v ∧ v < 4 ∧
      [ ON_MATCH_OR_IO, ON_MATCH, ON_IO, ON_MATCH_AND_IO].count v = 1) := by
  have hcount1 : ∀ v < 4,
      [IO_CONDITION_LOW, IO_CONDITION_RISE, IO_CONDITION_FALL, IO_CONDITION_HIGH].count v = 1 := by
    decide
  have hcount2 : ∀ v < 4, [ ON_MATCH_OR_IO, ON_MATCH, ON_IO, ON_MATCH_AND_IO].count v = 1 := by
    decide
  have hlt1 : ∀ c ∈ [IO_CONDITION_LOW, IO_CONDITION_RISE, IO_CONDITION_FALL, IO_CONDITION_HIGH],
      c < 4 := by decide
  have hlt2 : ∀ c ∈ [ ON_MATCH_OR_IO, ON_MATCH, ON_IO, ON_MATCH_AND_IO], c < 4 := by decide
  refine ⟨by decide, by decide, ⟨by rfl, by rfl⟩, ?_, ?_, ?_, ?_⟩
  · intro c hc
    refine ⟨hlt1 c hc, fun r => ⟨writeBits 42 2 c r, ?_, ?_⟩⟩
    · simp only [CType.set, find_associated_io_condition, CType.bits]
    · simp only [CType.get, find_associated_io_condition, CType.bits, readBits_writeBits_same]
      rw [Nat.mod_eq_of_lt (show c < 2 ^ 2 from hlt1 c hc)]
  · intro c hc
    refine ⟨hlt2 c hc, fun r => ⟨writeBits 44 2 c r, ?_, ?_⟩⟩
    · simp only [CType.set, find_condition, CType.bits]
    · simp only [CType.get, find_condition, CType.bits, readBits_writeBits_same]
      rw [Nat.mod_eq_of_lt (show c < 2 ^ 2 from hlt2 c hc)]
  · intro r
    have hlt := readBits_lt 42 2 r
    refine ⟨readBits 42 2 r, ?_, hlt, hcount1 _ hlt⟩
    simp only [CType.get, find_associated_io_condition, CType.bits]
  · intro r
    have hlt := readBits_lt 44 2 r
    refine ⟨readBits 44 2 r, ?_, hlt, hcount2 _ hlt⟩
    simp only [CType.get, find_condition, CType.bits]

/-- Witness for C15: IO_CONDITION_FALL written to associated_io_condition of a
cleared record reads back as 2. -/
theorem condition_enumerations_exact_witness :
    IO_CONDITION_FALL ∈ [IO_CONDITION_LOW, IO_CONDITION_RISE, IO_CONDITION_FALL,
      IO_CONDITION_HIGH] ∧
    event_registers_t.set "associated_io_condition" IO_CONDITION_FALL 0
      = some 0x0000080000000000 ∧
    (IO_CONDITION_FALL < 4 ∧ ∀ r, ∃ r1,
      event_registers_t.set "associated_io_condition" IO_CONDITION_FALL r = some r1 ∧
      event_registers_t.get "associated_io_condition" r1 = some IO_CONDITION_FALL) :=
  ⟨by decide, by rfl, condition_enumerations_exact.2.2.2.1 IO_CONDITION_FALL (by decide)⟩

/-! ## Slot records -/

theorem load_writeBits_disjoint (t : CType) (pb : List Step) (q u : Nat)
    (hb : extent t pb = some (q, u)) (p w v b : Nat) (hd : q + u ≤ p ∨ p + w ≤ q) :
    load t pb (writeBits p w v b) = load t pb b := by
  simp only [load, hb]
  rw [readBits_writeBits_disjoint p w q u v b hd]

theorem extent_of_any (t : CType) (path : List Step) (lo n : Nat)
    (h : (extent t path).any (fun r => decide (lo ≤ r.1 ∧ r.1 + r.2 ≤ lo + n)) = true) :
    ∃ p w, extent t path = some (p, w) ∧ lo ≤ p ∧ p + w ≤ lo + n := by
  cases he : extent t path with
  | none => simp [he] at h
  | some r =>
    obtain ⟨p, w⟩ := r
    simp only [he, Option.any_some, decide_eq_true_eq] at h
    exact ⟨p, w, rfl, h.1, h.2⟩

theorem extent_output_set : ∀ i < 16,
    extent platform_sct_register_block_t
      [.member "output_on_event", .index i, .member "set"] = some (8 * (0x500 + 8 * i), 32) := by
  decide

theorem extent_output_clear : ∀ i < 16,
    extent platform_sct_register_block_t
      [.member "output_on_event", .index i, .member "clear"] = some (8 * (0x504 + 8 * i), 32) := by
  decide

theorem extent_output_slot : ∀ i < 16,
    extent platform_sct_register_block_t
      [.member "output_on_event", .index i] = some (8 * (0x500 + 8 * i), 64) := by
  decide

theorem extent_event_enabled : ∀ i < 16,
    extent platform_sct_register_block_t
      [.member "event", .index i, .member "enabled_in_state"] =
        some (8 * (0x300 + 8 * i), 32) := by
  decide

theorem extent_event_slot : ∀ i < 16,
    extent platform_sct_register_block_t
      [.member "event", .index i] = some (8 * (0x300 + 8 * i), 64) := by
  decide

theorem extent_event_predicate : ∀ i < 16, ∀ f ∈ event_predicates.names,
    (extent platform_sct_register_block_t [.member "event", .index i, .member f]).any
      (fun r => decide (8 * (0x304 + 8 * i) ≤ r.1 ∧ r.1 + r.2 ≤ 8 * (0x304 + 8 * i) + 32)) =
        true := by
  decide

/-- C16: for every slot index `i` in 0..15 the event record has its
enabled_in_state mask at block offset 0x300 + 8*i and its control word (every
predicate field) at 0x304 + 8*i, and the output record has its set mask at
0x500 + 8*i and its clear mask at 0x504 + 8*i. The two 32-bit words of a slot
are disjoint: writing a slot's set mask changes neither its clear mask nor any
other output or event slot, and vice versa; writing a slot's enabled_in_state
mask changes neither its control word nor any other slot, and writing a
predicate field changes neither the slot's mask nor any other slot. -/
theorem slot_words_are_disjoint :
    (∀ i < 16,
      byteOffset platform_sct_register_block_t
        [.member "event", .index i, .member "enabled_in_state"] = some (0x300 + 8 * i) ∧
      extent platform_sct_register_block_t
        [.member "event", .index i, .member "enabled_in_state"] =
          some (8 * (0x300 + 8 * i), 32) ∧
      (∀ f ∈ event_predicates.names,
        extent platform_sct_register_block_t [.member "event", .index i, .member f] =
          (extent event_predicates [.member f]).map
            (fun r => (8 * (0x304 + 8 * i) + r.1, r.2))) ∧
      byteOffset platform_sct_register_block_t
        [.member "output_on_event", .index i, .member "set"] = some (0x500 + 8 * i) ∧
      byteOffset platform_sct_register_block_t
        [.member "output_on_event", .index i, .member "clear"] = some (0x504 + 8 * i) ∧
      extent platform_sct_register_block_t
        [.member "output_on_event", .index i, .member "set"] = some (8 * (0x500 + 8 * i), 32) ∧
      extent platform_sct_register_block_t
        [.member "output_on_event", .index i, .member "clear"] =
          some (8 * (0x504 + 8 * i), 32)) ∧
    (event_predicates.bits = 32 ∧
      ∀ f ∈ event_predicates.names, memberWithin event_predicates f = true) ∧
    (∀ i < 16, ∀ v b, ∃ b1,
      store platform_sct_register_block_t
        [.member "output_on_event", .index i, .member "set"] v b = some b1 ∧
      load platform_sct_register_block_t
          [.member "output_on_event", .index i, .member "clear"] b1 =
        load platform_sct_register_block_t
          [.member "output_on_event", .index i, .member "clear"] b ∧
      (∀ j < 16, j ≠ i →
        load platform_sct_register_block_t [.member "output_on_event", .index j] b1 =
          load platform_sct_register_block_t [.member "output_on_event", .index j] b) ∧
      (∀ j < 16,
        load platform_sct_register_block_t [.member "event", .index j] b1 =
          load platform_sct_register_block_t [.member "event", .index j] b)) ∧
    (∀ i < 16, ∀ v b, ∃ b1,
      store platform_sct_register_block_t
        [.member "output_on_event", .index i, .member "clear"] v b = some b1 ∧
      load platform_sct_register_block_t
          [.member "output_on_event", .index i, .member "set"] b1 =
        load platform_sct_register_block_t
          [.member "output_on_event", .index i, .member "set"] b ∧
      (∀ j < 16, j ≠ i →
        load platform_sct_register_block_t [.member "output_on_event", .index j] b1 =
          load platform_sct_register_block_t [.member "output_on_event", .index j] b) ∧
      (∀ j < 16,
        load platform_sct_register_block_t [.member "event", .index j] b1 =
          load platform_sct_register_block_t [.member "event", .index j] b)) ∧
    (∀ i < 16, ∀ v b, ∃ b1,
      store platform_sct_register_block_t
        [.member "event", .index i, .member "enabled_in_state"] v b = some b1 ∧
      (load platform_sct_register_block_t [.member "event", .index i] b1).map
          event_control_word =
        (load platform_sct_register_block_t [.member "event", .index i] b).map
          event_control_word ∧
      (∀ j < 16, j ≠ i →
        load platform_sct_register_block_t [.member "event", .index j] b1 =
          load platform_sct_register_block_t [.member "event", .index j] b) ∧
      (∀ j < 16,
        load platform_sct_register_block_t [.member "output_on_event", .index j] b1 =
          load platform_sct_register_block_t [.member "output_on_event", .index j] b)) ∧
    (∀ i < 16, ∀ f ∈ event_predicates.names, ∀ v b, ∃ b1,
      store platform_sct_register_block_t
        [.member "event", .index i, .member f] v b = some b1 ∧
      load platform_sct_register_block_t
          [.member "event", .index i, .member "enabled_in_state"] b1 =
        load platform_sct_register_block_t
          [.member "event", .index i, .member "enabled_in_state"] b ∧
      (∀ j < 16, j ≠ i →
        load platform_sct_register_block_t [.member "event", .index j] b1 =
          load platform_sct_register_block_t [.member "event", .index j] b) ∧
      (∀ j < 16,
        load platform_sct_register_block_t [.member "output_on_event", .index j] b1 =
          load platform_sct_register_block_t [.member "output_on_event", .index j] b)) := by
  refine ⟨by decide, by decide, ?_, ?_, ?_, ?_⟩
  · intro i hi v b
    refine ⟨writeBits (8 * (0x500 + 8 * i)) 32 v b, ?_, ?_, ?_, ?_⟩
    · simp only [store, extent_output_set i hi]
    · exact load_writeBits_disjoint _ _ _ _ (extent_output_clear i hi) _ _ _ _ (by omega)
    · intro j hj hne
      exact load_writeBits_disjoint _ _ _ _ (extent_output_slot j hj) _ _ _ _ (by omega)
    · intro j hj
      exact load_writeBits_disjoint _ _ _ _ (extent_event_slot j hj) _ _ _ _ (by omega)
  · intro i hi v b
    refine ⟨writeBits (8 * (0x504 + 8 * i)) 32 v b, ?_, ?_, ?_, ?_⟩
    · simp only [store, extent_output_clear i hi]
    · exact load_writeBits_disjoint _ _ _ _ (extent_output_set i hi) _ _ _ _ (by omega)
    · intro j hj hne
      exact load_writeBits_disjoint _ _ _ _ (extent_output_slot j hj) _ _ _ _ (by omega)
    · intro j hj
      exact load_writeBits_disjoint _ _ _ _ (extent_event_slot j hj) _ _ _ _ (by omega)
  · intro i hi v b
    refine ⟨writeBits (8 * (0x300 + 8 * i)) 32 v b, ?_, ?_, ?_, ?_⟩
    · simp only [store, extent_event_enabled i hi]
    · simp only [load, extent_event_slot i hi, Option.map_some', event_control_word]
      rw [readBits_readBits _ _ _ _ _ (by omega), readBits_readBits _ _ _ _ _ (by omega),
        readBits_writeBits_disjoint _ _ _ _ _ _ (by omega)]
    · intro j hj hne
      exact load_writeBits_disjoint _ _ _ _ (extent_event_slot j hj) _ _ _ _ (by omega)
    · intro j hj
      exact load_writeBits_disjoint _ _ _ _ (extent_output_slot j hj) _ _ _ _ (by omega)
  · intro i hi f hf v b
    obtain ⟨p, w, he, hlo, hhi⟩ := extent_of_any _ _ _ _ (extent_event_predicate i hi f hf)
    refine ⟨writeBits p w v b, ?_, ?_, ?_, ?_⟩
    · simp only [store, he]
    · exact load_writeBits_disjoint _ _ _ _ (extent_event_enabled i hi) _ _ _ _ (by omega)
    · intro j hj hne
      exact load_writeBits_disjoint _ _ _ _ (extent_event_slot j hj) _ _ _ _ (by omega)
    · intro j hj
      exact load_writeBits_disjoint _ _ _ _ (extent_output_slot j hj) _ _ _ _ (by omega)

/-- Witness for C16: storing 0xFFFF in the set mask of output slot 2 puts it
at byte 0x510 and leaves the clear mask of that slot unchanged. -/
theorem slot_words_are_disjoint_witness :
    2 < 16 ∧
    byteOffset platform_sct_register_block_t
      [.member "output_on_event", .index 2, .member "set"] = some 0x510 ∧
    ∃ b1, store platform_sct_register_block_t
        [.member "output_on_event", .index 2, .member "set"] 0xFFFF 0 = some b1 ∧
      load platform_sct_register_block_t
          [.member "output_on_event", .index 2, .member "clear"] b1 =
        load platform_sct_register_block_t
          [.member "output_on_event", .index 2, .member "clear"] 0 :=
  ⟨by decide, by rfl,
    match slot_words_are_disjoint.2.2.1 2 (by decide) 0xFFFF 0 with
    | ⟨b1, h1, h2, _⟩ => ⟨b1, h1, h2⟩⟩

/-! ## Round trips and the clock selector -/

theorem word_round_trip (t : CType)
    (hw : ∀ a ∈ t.names, memberWithin t a = true) :
    ∀ f ∈ t.names, ∃ pos ty, t.find f = some (pos, ty) ∧
      ∀ v w, ∃ w1, t.set f v w = some w1 ∧ t.get f w1 = some (v % 2 ^ ty.bits) ∧
        (v < 2 ^ ty.bits → t.get f w1 = some v) ∧
        ∀ v2 w0, ∃ w2, t.set f v2 w0 = some w2 ∧
          (t.get f w1 = t.get f w2 ↔ v % 2 ^ ty.bits = v2 % 2 ^ ty.bits) := by
  intro f hf
  obtain ⟨pos, ty, hfind, _⟩ := find_of_memberWithin t f (hw f hf)
  refine ⟨pos, ty, hfind, fun v w => ⟨writeBits pos ty.bits v w, ?_, ?_, ?_, ?_⟩⟩
  · simp only [CType.set, hfind]
  · simp only [CType.get, hfind, readBits_writeBits_same]
  · intro hv
    simp only [CType.get, hfind, readBits_writeBits_same, Nat.mod_eq_of_lt hv]
  · intro v2 w0
    refine ⟨writeBits pos ty.bits v2 w0, ?_, ?_⟩
    · simp only [CType.set, hfind]
    · simp only [CType.get, hfind, readBits_writeBits_same, Option.some.injEq]

/-- C17: sub-field write/read round trip. For every named bit-field `f` of
width `w` in the event control word, the control register and the
configuration word, and every value `v`, reading `f` right after writing `v`
to it yields `v mod 2^w`; every `v < 2^w` reads back unchanged, and two values
written to `f` read back equal exactly when they are congruent mod `2^w`. For
example next_state = 37 reads back 5 and count_prescaler = 256 reads back 0. -/
theorem bitfield_round_trip :
    (∀ t ∈ [event_predicates, sct_control_register_t, general_configuration],
      ∀ f ∈ t.names, ∃ pos ty, t.find f = some (pos, ty) ∧
        ∀ v w, ∃ w1, t.set f v w = some w1 ∧ t.get f w1 = some (v % 2 ^ ty.bits) ∧
          (v < 2 ^ ty.bits → t.get f w1 = some v) ∧
          ∀ v2 w0, ∃ w2, t.set f v2 w0 = some w2 ∧
            (t.get f w1 = t.get f w2 ↔ v % 2 ^ ty.bits = v2 % 2 ^ ty.bits)) ∧
    (event_predicates.names.length = 8 ∧ sct_control_register_t.names.length = 6 ∧
      general_configuration.names.length = 14) ∧
    (∀ w, ∃ w1, event_predicates.set "next_state" 37 w = some w1 ∧
      event_predicates.get "next_state" w1 = some 5) ∧
    (∀ w, ∃ w1, sct_control_register_t.set "count_prescaler" 256 w = some w1 ∧
      sct_control_register_t.get "count_prescaler" w1 = some 0) := by
  refine ⟨?_, by decide, ?_, ?_⟩
  · intro t ht
    simp only [List.mem_cons, List.mem_singleton, List.not_mem_nil, or_false] at ht
    rcases ht with rfl | rfl | rfl
    · exact word_round_trip _ (by decide)
    · exact word_round_trip _ (by decide)
    · exact word_round_trip _ (by decide)
  · intro w
    have hf : event_predicates.find "next_state" = some (15, .bitfield .uint32_t 5) := by rfl
    refine ⟨writeBits 15 5 37 w, ?_, ?_⟩
    · simp only [CType.set, hf, CType.bits]
    · simp only [CType.get, hf, CType.bits, readBits_writeBits_same]
      rfl
  · intro w
    refine ⟨writeBits 5 8 256 w, ?_, ?_⟩
    · simp only [CType.set, find_count_prescaler, CType.bits]
    · simp only [CType.get, find_count_prescaler, CType.bits, readBits_writeBits_same]
      rfl

/-- Witness for C17: 37 written to next_state of a cleared control word reads back 5. -/
theorem bitfield_round_trip_witness :
    event_predicates ∈ [event_predicates, sct_control_register_t, general_configuration] ∧
    "next_state" ∈ event_predicates.names ∧
    event_predicates.set "next_state" 37 0 = some 0x00028000 ∧
    event_predicates.get "next_state" 0x00028000 = some 5 ∧
    ∃ pos ty, event_predicates.find "next_state" = some (pos, ty) ∧
      ∃ w1, event_predicates.set "next_state" 37 0 = some w1 ∧
        event_predicates.get "next_state" w1 = some (37 % 2 ^ ty.bits) :=
  ⟨by simp, by decide, by rfl, by rfl,
    match bitfield_round_trip.1 event_predicates (by simp) "next_state" (by decide) with
    | ⟨pos, ty, h1, h2⟩ =>
      match h2 37 0 with
      | ⟨w1, h3, h4, _⟩ => ⟨pos, ty, h1, w1, h3, h4⟩⟩

theorem readBits_split (p a b w : Nat) :
    readBits p (a + b) w = (readBits (p + a) b w <<< a) ||| readBits p a w := by
  apply Nat.eq_of_testBit_eq
  intro i
  rw [Nat.testBit_or, Nat.testBit_shiftLeft, testBit_readBits, testBit_readBits,
    testBit_readBits]
  by_cases h : i < a
  · have h1 : ¬ (i ≥ a) := by omega
    have h2 : i < a + b := by omega
    simp [h, h1, h2]
  · have h1 : i ≥ a := by omega
    have h3 : p + a + (i - a) = p + i := by omega
    by_cases h2 : i < a + b
    · have h4 : i - a < b := by omega
      simp [h, h1, h2, h3, h4]
    · have h4 : ¬ (i - a < b) := by omega
      simp [h, h1, h2, h4]

theorem find_clock_on_falling_edges :
    general_configuration.find "clock_on_falling_edges" = some (3, .bitfield .uint32_t 1) := by
  rfl

/-- C18: the split clock-select fields compose to one 4-bit selector. A
configuration word whose clock_input_number is `n` and whose
clock_on_falling_edges is `e` has bits 3-6 equal to
`(n << SCT_CLK_INPUT_SHIFT) | e`; for every input line `n` in 0..7 and every
edge `e` in {SCT_CLK_INPUT_RISING, SCT_CLK_INPUT_FALLING} such a word is
obtained by writing the two fields, and the map from `(n, e)` to the 16 values
of bits 3-6 is one-to-one and onto. -/
theorem clock_select_composition :
    (general_configuration.find "clock_on_falling_edges" = some (3, .bitfield .uint32_t 1) ∧
      general_configuration.find "clock_input_number" = some (4, .bitfield .uint32_t 3)) ∧
    ([SCT_CLK_INPUT_RISING, SCT_CLK_INPUT_FALLING] = [0, 1] ∧ SCT_CLK_INPUT_SHIFT = 1) ∧
    (∀ w n e, general_configuration.get "clock_input_number" w = some n →
      general_configuration.get "clock_on_falling_edges" w = some e →
      readBits 3 4 w = (n <<< SCT_CLK_INPUT_SHIFT) ||| e) ∧
    (∀ n, n < 8 → ∀ e ∈ [SCT_CLK_INPUT_RISING, SCT_CLK_INPUT_FALLING], ∀ w, ∃ w1 w2,
      general_configuration.set "clock_input_number" n w = some w1 ∧
      general_configuration.set "clock_on_falling_edges" e w1 = some w2 ∧
      general_configuration.get "clock_input_number" w2 = some n ∧
      general_configuration.get "clock_on_falling_edges" w2 = some e ∧
      readBits 3 4 w2 = (n <<< SCT_CLK_INPUT_SHIFT) ||| e) ∧
    (∀ n < 8, ∀ e ∈ [SCT_CLK_INPUT_RISING, SCT_CLK_INPUT_FALLING],
      ∀ n2 < 8, ∀ e2 ∈ [SCT_CLK_INPUT_RISING, SCT_CLK_INPUT_FALLING],
        (n <<< SCT_CLK_INPUT_SHIFT) ||| e = (n2 <<< SCT_CLK_INPUT_SHIFT) ||| e2 →
          n = n2 ∧ e = e2) ∧
    (∀ s < 16, ∃ n < 8, ∃ e ∈ [SCT_CLK_INPUT_RISING, SCT_CLK_INPUT_FALLING],
      (n <<< SCT_CLK_INPUT_SHIFT) ||| e = s) := by
  have compose : ∀ w n e, general_configuration.get "clock_input_number" w = some n →
      general_configuration.get "clock_on_falling_edges" w = some e →
      readBits 3 4 w = (n <<< SCT_CLK_INPUT_SHIFT) ||| e := by
    intro w n e hn he
    simp only [CType.get, find_clock_input_number, find_clock_on_falling_edges, CType.bits,
      Option.some.injEq] at hn he
    rw [← hn, ← he]
    exact readBits_split 3 1 3 w
  refine ⟨⟨by rfl, by rfl⟩, by decide, compose, ?_, by decide, by decide⟩
  intro n hn e he w
  have he2 : e < 2 ^ 1 := by
    simp only [List.mem_cons, List.mem_singleton, List.not_mem_nil, or_false] at he
    rcases he with rfl | rfl <;> decide
  have hread_n : general_configuration.get "clock_input_number"
      (writeBits 3 1 e (writeBits 4 3 n w)) = some n := by
    simp only [CType.get, find_clock_input_number, CType.bits]
    rw [readBits_writeBits_disjoint _ _ _ _ _ _ (by omega), readBits_writeBits_same,
      Nat.mod_eq_of_lt (show n < 2 ^ 3 from hn)]
  have hread_e : general_configuration.get "clock_on_falling_edges"
      (writeBits 3 1 e (writeBits 4 3 n w)) = some e := by
    simp only [CType.get, find_clock_on_falling_edges, CType.bits]
    rw [readBits_writeBits_same, Nat.mod_eq_of_lt he2]
  refine ⟨writeBits 4 3 n w, writeBits 3 1 e (writeBits 4 3 n w), ?_, ?_, hread_n, hread_e,
    compose _ n e hread_n hread_e⟩
  · simp only [CType.set, find_clock_input_number, CType.bits]
  · simp only [CType.set, find_clock_on_falling_edges, CType.bits]

/-- Witness for C18: input line 5 on falling edges gives selector 0b1011 in bits 3-6. -/
theorem clock_select_composition_witness :
    5 < 8 ∧ SCT_CLK_INPUT_FALLING ∈ [SCT_CLK_INPUT_RISING, SCT_CLK_INPUT_FALLING] ∧
    (5 <<< SCT_CLK_INPUT_SHIFT) ||| SCT_CLK_INPUT_FALLING = 0b1011 ∧
    general_configuration.set "clock_input_number" 5 0 = some 0x50 ∧
    general_configuration.set "clock_on_falling_edges" SCT_CLK_INPUT_FALLING 0x50 = some 0x58 ∧
    readBits 3 4 0x58 = 0b1011 ∧
    ∃ w1 w2, general_configuration.set "clock_input_number" 5 0 = some w1 ∧
      general_configuration.set "clock_on_falling_edges" SCT_CLK_INPUT_FALLING w1 = some w2 ∧
      readBits 3 4 w2 = (5 <<< SCT_CLK_INPUT_SHIFT) ||| SCT_CLK_INPUT_FALLING :=
  ⟨by decide, by decide, by decide, by rfl, by rfl, by decide,
    match clock_select_composition.2.2.2.1 5 (by decide) SCT_CLK_INPUT_FALLING (by decide) 0 with
    | ⟨w1, w2, h1, h2, _, _, h5⟩ => ⟨w1, w2, h1, h2, h5⟩⟩

end Sct
